import Mathlib

/-!
Shallow embedding of `src/sitecustomize.py` (proflog): a signal-triggered
stack dumper.  Python-level behaviours are modelled explicitly:

* Python exceptions are values of `PyErr`, and fallible code returns
  `Except PyErr _`;
* Python list indexing (including negative indices) is `pyGet`;
* `str.strip` / `str.split(sep)` / `str.startswith` are modelled on the
  character list underlying a `String` (`pyStrip`, `pySplit`,
  `pyStartsWith`);
* the `ast.parse` collaborator is a parameter `astParse` (a validity
  oracle that either succeeds or raises), exactly as the design treats it;
* `functools.lru_cache` on `read_file` becomes explicit cache state
  (`CacheState`), with a read counter recording each access to storage --
  Python's `lru_cache` does not memoise a call that raises;
* the signal-handler frame argument is modelled as the innermost-first
  chain of `Frame`s reachable through `f_back`.
-/

namespace Proflog

/-- Coarse classification of the Python exceptions that can arise in the
pipeline: `SyntaxError` from `ast.parse`, `IndexError` from list indexing,
I/O errors from `open`/`print`, and `AssertionError` from `assert`. -/
inductive PyErr where
  | syntaxError
  | indexError
  | ioError
  | assertionError
deriving DecidableEq

/-- Python `str.strip()`: remove whitespace from both ends. -/
def pyStrip (s : String) : String :=
  String.mk (((s.data.dropWhile Char.isWhitespace).reverse.dropWhile
    Char.isWhitespace).reverse)

/-- Python `str.split(c)` for a one-character separator: split on every
occurrence, keeping empty pieces; `"".split(c) == [""]`. -/
def pySplit (c : Char) : List Char → List (List Char)
  | [] => [[]]
  | x :: xs =>
    let r := pySplit c xs
    if x = c then [] :: r else (x :: r.headD []) :: r.tail

/-- Python `s.split(c)` on `String`s. -/
def pySplitStr (c : Char) (s : String) : List String :=
  (pySplit c s.data).map String.mk

/-- Python `s.startswith(p)`. -/
def pyStartsWith (s p : String) : Bool :=
  p.data.isPrefixOf s.data

/-- Python list indexing `xs[i]`: non-negative indices from the front,
negative indices from the back, `IndexError` when out of range. -/
def pyGet (xs : List String) (i : Int) : Except PyErr String :=
  if 0 ≤ i then
    match xs.get? i.toNat with
    | some v => .ok v
    | none => .error .indexError
  else if (-i).toNat ≤ xs.length then
    match xs.get? (xs.length - (-i).toNat) with
    | some v => .ok v
    | none => .error .indexError
  else .error .indexError

/-- `STACKTRACE_PYTHON_PACKAGES`: the configured namespace-prefix list,
obtained as `os.environ.get("PROFLOG_STACKTRACE_PYTHON_PACKAGES", "").split(",")`. -/
def STACKTRACE_PYTHON_PACKAGES_of (envVal : String) : List String :=
  pySplitStr ',' envVal

/-- `parse_as_python(s)`: run the parse oracle on
`"async def scope(): " + s`; `SyntaxError` means `False`, success means
`True`, and any other exception propagates (only `SyntaxError` is caught). -/
def parse_as_python (astParse : String → Except PyErr Unit) (s : String) :
    Except PyErr Bool :=
  match astParse ("async def scope(): " ++ s) with
  | .ok _ => .ok true
  | .error .syntaxError => .ok false
  | .error e => .error e

/-- The state behind `@functools.lru_cache def read_file`: the memo table
plus a counter of reads actually issued to the filesystem collaborator
(the "external read-count collaborator" of the design's test plan). -/
structure CacheState where
  cache : List (String × List String)
  reads : Nat
deriving DecidableEq

/-- `read_file(file)`: on a cache hit return the memoised lines; otherwise
read the file, strip every line, and memoise.  A raising read is counted
but (as with Python's `lru_cache`) not memoised, and the exception
propagates to the caller. -/
def read_file (fsys : String → Except PyErr (List String)) (file : String)
    (st : CacheState) : Except PyErr (List String) × CacheState :=
  match st.cache.lookup file with
  | some v => (.ok v, st)
  | none =>
    match fsys file with
    | .ok raw => (.ok (raw.map pyStrip), ⟨(file, raw.map pyStrip) :: st.cache, st.reads + 1⟩)
    | .error e => (.error e, ⟨st.cache, st.reads + 1⟩)

/-- `lines[lineno].split("#")[0].strip()`: the comment-stripping applied to
each line appended during consolidation. -/
def stripComment (s : String) : String :=
  pyStrip (String.mk ((pySplit '#' s.data).headD []))

/-- The `while not parse_as_python(line)` loop of `consolidate_multiline`:
grow `line` by appending comment-stripped successor lines until the oracle
accepts, falling back to `lines[original_lineno]` when the file is
exhausted.  Index arithmetic is over `Int`, as in Python. -/
def consolidateLoop (astParse : String → Except PyErr Unit) (L : List String)
    (orig : Int) (idx : Int) (line : String) : Except PyErr String :=
  match parse_as_python astParse line with
  | .error e => .error e
  | .ok true => .ok line
  | .ok false =>
    if _h : (L.length : Int) ≤ idx + 1 then pyGet L orig
    else
      match pyGet L (idx + 1) with
      | .error e => .error e
      | .ok nxt => consolidateLoop astParse L orig (idx + 1) (line ++ stripComment nxt)
termination_by ((L.length : Int) - idx).toNat
decreasing_by omega

/-- The body of `consolidate_multiline`'s `try` block: decrement the line
number, fetch the cached lines, index the starting line, and run the
consolidation loop.  Any step may raise. -/
def consolidateBody (astParse : String → Except PyErr Unit)
    (fsys : String → Except PyErr (List String)) (file : String)
    (lineno : Int) (st : CacheState) : Except PyErr String × CacheState :=
  let idx := lineno - 1
  match read_file fsys file st with
  | (.error e, st') => (.error e, st')
  | (.ok L, st') =>
    match pyGet L idx with
    | .error e => (.error e, st')
    | .ok line => (consolidateLoop astParse L idx idx line, st')

/-- `consolidate_multiline(file, lineno)`: the `try` body with the bare
`except` that converts every exception into the `"<unknown>"` placeholder. -/
def consolidate_multiline (astParse : String → Except PyErr Unit)
    (fsys : String → Except PyErr (List String)) (file : String)
    (lineno : Int) (st : CacheState) : String × CacheState :=
  match consolidateBody astParse fsys file lineno st with
  | (.ok r, st') => (r, st')
  | (.error _, st') => ("<unknown>", st')

/-- One level of the call stack: the `__name__` of the frame's globals,
the code object's file name, and `f.lineno` (`none` models Python `None`). -/
structure Frame where
  modname : String
  filename : String
  lineno : Option Nat
deriving DecidableEq

/-- `any(f_modname.startswith(f"{p}") for p in STACKTRACE_PYTHON_PACKAGES)`. -/
def frameMatches (pkgs : List String) (modname : String) : Bool :=
  pkgs.any fun p => pyStartsWith modname p

/-- The `while frame and frame.f_back` walk of `dump_stacktrace`, acting on
the innermost-first frame chain: step outward while the current frame has
an outer frame and its module matches no configured package; the result is
the chain suffix starting at the stopping frame. -/
def filterWalk (pkgs : List String) : List Frame → List Frame
  | [] => []
  | [f] => [f]
  | f :: g :: rest =>
    if frameMatches pkgs f.modname then f :: g :: rest
    else filterWalk pkgs (g :: rest)

/-- `traceback.extract_stack(frame)` after the walk: the full call chain
from the outermost frame down to (and including) the stopping frame. -/
def extractTrace (pkgs : List String) (chain : List Frame) : List Frame :=
  (filterWalk pkgs chain).reverse

/-- The fixed separator `" \x1b[0;34m←\x1b[0m "` joining rendered frames. -/
def SEP : String := " \x1b[0;34m←\x1b[0m "

/-- `pathlib.Path(p).name` for the forward-slash paths that occur here. -/
def pathName (p : String) : String :=
  (pySplitStr '/' p).getLastD p

/-- The `{f.lineno}` interpolation in the extra tag: Python prints `None`
when the frame has no line number. -/
def linenoStr : Option Nat → String
  | some n => toString n
  | none => "None"

/-- The configuration and collaborators of one `dump_stacktrace` call:
the parse oracle, the filesystem, `STACKTRACE_PYTHON_PACKAGES`,
`STACKTRACE_SIZE`, `STACKTRACE_EXTRA`, whether `STACKTRACE_FILE` is set
(the `assert`), and whether the `print` to it succeeds. -/
structure DumpEnv where
  astParse : String → Except PyErr Unit
  fsys : String → Except PyErr (List String)
  pkgs : List String
  size : Nat
  extra : Bool
  fileOpen : Bool
  writeOk : Bool

/-- Render one frame: `consolidate_multiline(f.filename, f.lineno or 0)`,
prefixed with the colourised `name:lineno` tag when `STACKTRACE_EXTRA`. -/
def renderFrame (env : DumpEnv) (f : Frame) (st : CacheState) :
    String × CacheState :=
  let r := consolidate_multiline env.astParse env.fsys f.filename
    ((f.lineno.getD 0 : Nat) : Int) st
  if env.extra then
    ("\x1b[0;34m" ++ pathName f.filename ++ ":" ++ linenoStr f.lineno ++
      "\x1b[0m " ++ r.1, r.2)
  else r

/-- Render a list of frames in order, threading the line cache through. -/
def renderFrames (env : DumpEnv) : List Frame → CacheState → List String × CacheState
  | [], st => ([], st)
  | f :: fr, st =>
    let r := renderFrame env f st
    let rest := renderFrames env fr r.2
    (r.1 :: rest.1, rest.2)

/-- The body of `dump_stacktrace`'s `try` block: walk and extract the
trace, `assert STACKTRACE_FILE`, render `stacktrace[::-1][:STACKTRACE_SIZE]`
joined by `SEP`, and `print` the line (which may raise). -/
def dumpBody (env : DumpEnv) (chain : List Frame) (st : CacheState) :
    Except PyErr String × CacheState :=
  let stacktrace := extractTrace env.pkgs chain
  if env.fileOpen then
    let r := renderFrames env (stacktrace.reverse.take env.size) st
    let txt := String.intercalate SEP r.1
    if env.writeOk then (.ok txt, r.2) else (.error .ioError, r.2)
  else (.error .assertionError, st)

/-- `dump_stacktrace`: the `try` body under the bare `except: ...`.
The outer `Except` is what escapes to the host process; the `Option`
records whether a line was written. -/
def dump_stacktrace (env : DumpEnv) (chain : List Frame) (st : CacheState) :
    Except PyErr (Option String × CacheState) :=
  match dumpBody env chain st with
  | (.ok txt, st') => .ok (some txt, st')
  | (.error _, st') => .ok (none, st')

/-- The spec-side characterisation of the Frame Filter's stopping point:
the index (in the innermost-first chain) of the first frame whose module
matches a configured prefix, clipped to the outermost frame when no frame
matches. -/
def stopIndex (pkgs : List String) (chain : List Frame) : Nat :=
  min (chain.findIdx fun f => frameMatches pkgs f.modname) (chain.length - 1)

/-- The accumulated consolidation window: the starting line with the
comment-stripped lines at indices `i+1 .. i+k` appended, exactly the
buffer the loop tests after `k` growth steps. -/
def grown (line : String) (L : List String) (i : Nat) : Nat → String
  | 0 => line
  | k + 1 => grown line L i k ++ stripComment (L.getD (i + 1 + k) "")

/-- The value `consolidate_multiline` extracts from a loop outcome:
the consolidated line on success, the placeholder on an exception. -/
def okValue : Except PyErr String → String
  | .ok r => r
  | .error _ => "<unknown>"

/-! ### Concrete fixtures used to instantiate the theorems -/

/-- A parse oracle that accepts everything. -/
def okParse : String → Except PyErr Unit := fun _ => .ok ()

/-- A filesystem whose every read raises (a forced cache-read failure). -/
def failFS : String → Except PyErr (List String) := fun _ => .error .ioError

/-- An oracle that rejects everything: no window ever parses. -/
def rejectAll : String → Except PyErr Unit := fun _ => .error .syntaxError

/-- The innermost frame of the demonstration chain: stdlib code. -/
def frameA : Frame := ⟨"posixpath", "/usr/lib/posixpath.py", some 10⟩

/-- The mid frame of the demonstration chain: application code. -/
def frameB : Frame := ⟨"myapp.core", "/srv/myapp/core.py", some 42⟩

/-- The outermost frame of the demonstration chain. -/
def frameC : Frame := ⟨"__main__", "/srv/myapp/main.py", some 3⟩

/-- A concrete innermost-first call chain. -/
def demoChain : List Frame := [frameA, frameB, frameC]

/-- A concrete dump configuration: everything matches the filter, one
frame rendered at most, plain output, open handle, writable file. -/
def demoEnv : DumpEnv := ⟨okParse, failFS, [""], 1, false, true, true⟩

/-- An oracle accepting exactly the fully joined three-line statement. -/
def c3Parse : String → Except PyErr Unit := fun s =>
  if s = "async def scope(): foo(a,b,c)" then .ok () else .error .syntaxError

/-- The cache state of the three-line demonstration file. -/
def c3State : CacheState :=
  ⟨[("three.py",
    ["foo(a,", String.mk ("b,".data ++ '#' :: " width".data), "c)"])], 1⟩

/-- The cache state of a file of two unclosed fragments. -/
def c4State : CacheState := ⟨[("frag.py", ["(", "("])], 1⟩

/-- An oracle behaving like the real one on the comment-bearing first
line: everything starting with the unclosed call plus comment marker is
rejected (the marker comments out whatever follows on the same line). -/
def c9Parse : String → Except PyErr Unit := fun s =>
  if "async def scope(): foo(a,#".data.isPrefixOf s.data then
    .error .syntaxError
  else .ok ()

/-- The cache state of the file whose queried line has the comment. -/
def c9State : CacheState :=
  ⟨[("cmt.py", [String.mk ("foo(a,".data ++ '#' :: " c".data), "b)"])], 1⟩

/-- An oracle accepting exactly the one statement of the one-line file. -/
def c10Parse : String → Except PyErr Unit := fun s =>
  if s = "async def scope(): x = 1" then .ok () else .error .syntaxError

/-- The cache state of the one-line demonstration file. -/
def c10State : CacheState := ⟨[("last.py", ["x = 1"])], 1⟩

/-! ### Shared auxiliary facts -/

/-- The empty string is a prefix of every module name. -/
lemma pyStartsWith_empty (s : String) : pyStartsWith s "" = true := by
  show ([] : List Char).isPrefixOf s.data = true
  cases s.data <;> rfl

/-! ### Claim theorems -/

/-- C1: the dump entry point never propagates any exception.  For every
frame chain, cache state and environment (covering arbitrary failures of
the filesystem, the parse oracle, the output handle and the write), the
bare `except` makes `dump_stacktrace` return normally; a failed body at
most produces a missing line (`none`). -/
theorem dump_stacktrace_never_raises (env : DumpEnv) (chain : List Frame)
    (st : CacheState) : (dump_stacktrace env chain st).isOk = true := by
  unfold dump_stacktrace
  rcases h : dumpBody env chain st with ⟨r, st'⟩
  cases r <;> rfl

/-- C5: `consolidate_multiline` is total: whenever the `try` body raises
any exception, the bare `except` turns the result into the fixed
placeholder `"<unknown>"` instead of propagating. -/
theorem consolidate_multiline_swallows (astParse : String → Except PyErr Unit)
    (fsys : String → Except PyErr (List String)) (file : String)
    (lineno : Int) (st : CacheState) (e : PyErr) (st' : CacheState)
    (h : consolidateBody astParse fsys file lineno st = (.error e, st')) :
    consolidate_multiline astParse fsys file lineno st = ("<unknown>", st') := by
  unfold consolidate_multiline
  rw [h]

theorem consolidate_multiline_swallows_witness :
    consolidate_multiline okParse failFS "app.py" 7 ⟨[], 0⟩ =
      ("<unknown>", ⟨[], 1⟩) :=
  consolidate_multiline_swallows okParse failFS "app.py" 7 ⟨[], 0⟩
    .ioError ⟨[], 1⟩ rfl

/-- C7: with the namespace-prefix configuration left empty, the parsed
package list is `[""]`, the empty prefix matches every module name, and
the frame filter therefore stops at the signal-delivery frame itself
without walking outward. -/
theorem empty_package_config_matches_every_frame (m : String) (f : Frame)
    (rest : List Frame) :
    STACKTRACE_PYTHON_PACKAGES_of "" = [""] ∧
    frameMatches (STACKTRACE_PYTHON_PACKAGES_of "") m = true ∧
    filterWalk (STACKTRACE_PYTHON_PACKAGES_of "") (f :: rest) = f :: rest := by
  refine ⟨rfl, ?_, ?_⟩
  · show frameMatches [""] m = true
    simp [frameMatches, pyStartsWith_empty]
  · show filterWalk [""] (f :: rest) = f :: rest
    cases rest with
    | nil => rfl
    | cons g rs =>
      have hm : frameMatches [""] f.modname = true := by
        simp [frameMatches, pyStartsWith_empty]
      rw [filterWalk, hm]
      simp

/-- C8: the line cache is idempotent and read-once per path: a successful
`read_file` memoises, so the second call returns the same content with no
further storage read; a raising read is not memoised, so the failure
propagates and a subsequent call issues a fresh storage read. -/
theorem read_file_cache_semantics (fsys : String → Except PyErr (List String))
    (file : String) (st : CacheState) :
    (∀ v st', read_file fsys file st = (.ok v, st') →
      read_file fsys file st' = (.ok v, st')) ∧
    (∀ e st', read_file fsys file st = (.error e, st') →
      st'.cache = st.cache ∧ st'.reads = st.reads + 1 ∧
      read_file fsys file st' = (.error e, ⟨st.cache, st.reads + 2⟩)) := by
  constructor
  · intro v st' h
    cases hl : st.cache.lookup file with
    | some w =>
      simp only [read_file, hl] at h
      obtain ⟨h1, h2⟩ := Prod.mk.injEq .. ▸ h
      cases h1
      cases h2
      simp only [read_file, hl]
    | none =>
      cases hf : fsys file with
      | ok raw =>
        simp only [read_file, hl, hf] at h
        obtain ⟨h1, h2⟩ := Prod.mk.injEq .. ▸ h
        cases h1
        cases h2
        simp [read_file, List.lookup]
      | error e =>
        simp only [read_file, hl, hf] at h
        exact absurd (Prod.mk.injEq .. ▸ h).1 (by simp)
  · intro e st' h
    cases hl : st.cache.lookup file with
    | some w =>
      simp only [read_file, hl] at h
      exact absurd (Prod.mk.injEq .. ▸ h).1 (by simp)
    | none =>
      cases hf : fsys file with
      | ok raw =>
        simp only [read_file, hl, hf] at h
        exact absurd (Prod.mk.injEq .. ▸ h).1 (by simp)
      | error e' =>
        simp only [read_file, hl, hf] at h
        obtain ⟨h1, h2⟩ := Prod.mk.injEq .. ▸ h
        cases h1
        cases h2
        exact ⟨rfl, rfl, by simp only [read_file, hl, hf]⟩

theorem read_file_cache_semantics_witness :
    read_file (fun _ => .ok [" x "]) "a" ⟨[("a", ["x"])], 1⟩ =
      (.ok ["x"], ⟨[("a", ["x"])], 1⟩) ∧
    read_file failFS "b" ⟨[], 1⟩ = (.error .ioError, ⟨[], 2⟩) :=
  ⟨(read_file_cache_semantics (fun _ => .ok [" x "]) "a" ⟨[], 0⟩).1
      ["x"] ⟨[("a", ["x"])], 1⟩ rfl,
   ((read_file_cache_semantics failFS "b" ⟨[], 0⟩).2 .ioError ⟨[], 1⟩ rfl).2.2⟩

/-- Stepping the stopping index past a non-matching inner frame. -/
lemma stopIndex_cons_of_not_match (pkgs : List String) (f g : Frame)
    (rest : List Frame) (hm : frameMatches pkgs f.modname = false) :
    stopIndex pkgs (f :: g :: rest) = stopIndex pkgs (g :: rest) + 1 := by
  unfold stopIndex
  rw [List.findIdx_cons, hm]
  simp only [cond_false, List.length_cons]
  omega

/-- The source walk lands exactly at the frame indexed by `stopIndex`. -/
lemma filterWalk_eq_drop (pkgs : List String) :
    ∀ chain : List Frame, chain ≠ [] →
      filterWalk pkgs chain = chain.drop (stopIndex pkgs chain) := by
  intro chain
  induction chain with
  | nil => intro h; exact absurd rfl h
  | cons f rest ih =>
    intro _
    cases rest with
    | nil =>
      have h0 : stopIndex pkgs [f] = 0 := by
        unfold stopIndex; simp
      rw [h0]; rfl
    | cons g rs =>
      cases hm : frameMatches pkgs f.modname with
      | true =>
        have h0 : stopIndex pkgs (f :: g :: rs) = 0 := by
          unfold stopIndex; rw [List.findIdx_cons, hm]; simp
        rw [h0]
        simp only [filterWalk, hm, if_true, List.drop_zero]
      | false =>
        rw [stopIndex_cons_of_not_match pkgs f g rs hm, List.drop_succ_cons]
        simp only [filterWalk, hm, if_false]
        exact ih (by simp)

/-- C2: for every non-empty frame chain (innermost-first) and non-empty
prefix list, the walk stops at the first frame whose module matches some
prefix (all strictly inner frames fail to match), or at the outermost
frame when no frame matches, and the trace handed to the renderer is the
full ordered chain from the outermost frame down to and including that
stopping frame. -/
theorem frame_filter_and_trace_correct (pkgs : List String)
    (chain : List Frame) (hne : chain ≠ []) (_hp : pkgs ≠ []) :
    stopIndex pkgs chain < chain.length ∧
    (∀ j f, j < stopIndex pkgs chain → chain.get? j = some f →
      frameMatches pkgs f.modname = false) ∧
    ((∃ f, chain.get? (stopIndex pkgs chain) = some f ∧
        frameMatches pkgs f.modname = true) ∨
      stopIndex pkgs chain = chain.length - 1) ∧
    extractTrace pkgs chain = (chain.drop (stopIndex pkgs chain)).reverse := by
  have hlen : 0 < chain.length := List.length_pos.mpr hne
  have hfle := @List.findIdx_le_length Frame
    (fun f => frameMatches pkgs f.modname) chain
  have hstop_lt : stopIndex pkgs chain < chain.length := by
    unfold stopIndex; omega
  refine ⟨hstop_lt, ?_, ?_, ?_⟩
  · intro j f hj hget
    have hjf : j < chain.findIdx (fun f => frameMatches pkgs f.modname) := by
      unfold stopIndex at hj; omega
    have hjl : j < chain.length := lt_trans hj hstop_lt
    have hnp := List.not_of_lt_findIdx hjf
    rw [List.get?_eq_get hjl] at hget
    have hf : f = chain.get ⟨j, hjl⟩ := by
      exact (Option.some.injEq .. ▸ hget).symm
    rw [hf]
    simpa using hnp
  · by_cases hfi :
        chain.findIdx (fun f => frameMatches pkgs f.modname) < chain.length
    · left
      have hs : stopIndex pkgs chain =
          chain.findIdx (fun f => frameMatches pkgs f.modname) := by
        unfold stopIndex; omega
      refine ⟨chain.get ⟨chain.findIdx (fun f => frameMatches pkgs f.modname),
        hfi⟩, ?_, ?_⟩
      · rw [hs]; exact List.get?_eq_get hfi
      · simpa using @List.findIdx_get Frame
          (fun f => frameMatches pkgs f.modname) chain hfi
    · right
      unfold stopIndex; omega
  · unfold extractTrace
    rw [filterWalk_eq_drop pkgs chain hne]

theorem frame_filter_and_trace_correct_witness :
    stopIndex ["myapp"] demoChain < demoChain.length ∧
    extractTrace ["myapp"] demoChain =
      (demoChain.drop (stopIndex ["myapp"] demoChain)).reverse :=
  ⟨(frame_filter_and_trace_correct ["myapp"] demoChain
      (by simp [demoChain]) (by simp)).1,
   (frame_filter_and_trace_correct ["myapp"] demoChain
      (by simp [demoChain]) (by simp)).2.2.2⟩

/-- Rendering preserves the number of frames handed to it. -/
lemma renderFrames_length (env : DumpEnv) :
    ∀ (l : List Frame) (st : CacheState),
      (renderFrames env l st).1.length = l.length := by
  intro l
  induction l with
  | nil => intro st; rfl
  | cons f fr ih =>
    intro st
    simp only [renderFrames, List.length_cons, ih]

/-- C6: with `STACKTRACE_SIZE` strictly below the number of extracted
frames, the renderer emits exactly `STACKTRACE_SIZE` frame labels — the
extracted outermost-first trace reversed and truncated to its first
`STACKTRACE_SIZE` elements — and the dumped line is their join under the
fixed separator. -/
theorem renderer_truncates_to_size (env : DumpEnv) (chain : List Frame)
    (st : CacheState) (hopen : env.fileOpen = true) (hw : env.writeOk = true)
    (hK : env.size < (extractTrace env.pkgs chain).length) :
    (renderFrames env ((extractTrace env.pkgs chain).reverse.take env.size)
        st).1.length = env.size ∧
    dumpBody env chain st =
      (.ok (String.intercalate SEP (renderFrames env
          ((extractTrace env.pkgs chain).reverse.take env.size) st).1),
        (renderFrames env
          ((extractTrace env.pkgs chain).reverse.take env.size) st).2) := by
  constructor
  · rw [renderFrames_length, List.length_take, List.length_reverse]
    omega
  · simp only [dumpBody, hopen, hw, if_true]

theorem renderer_truncates_to_size_witness :
    (renderFrames demoEnv ((extractTrace demoEnv.pkgs demoChain).reverse.take
        demoEnv.size) ⟨[], 0⟩).1.length = demoEnv.size ∧
    dumpBody demoEnv demoChain ⟨[], 0⟩ =
      (.ok (String.intercalate SEP (renderFrames demoEnv
          ((extractTrace demoEnv.pkgs demoChain).reverse.take demoEnv.size)
          ⟨[], 0⟩).1),
        (renderFrames demoEnv
          ((extractTrace demoEnv.pkgs demoChain).reverse.take demoEnv.size)
          ⟨[], 0⟩).2) :=
  renderer_truncates_to_size demoEnv demoChain ⟨[], 0⟩ rfl rfl (by decide)

/-! ### Consolidation-loop machinery -/

/-- Unfolding the loop when the oracle accepts the buffer. -/
lemma consolidateLoop_done (astParse : String → Except PyErr Unit)
    (L : List String) (orig idx : Int) (line : String)
    (h : parse_as_python astParse line = .ok true) :
    consolidateLoop astParse L orig idx line = .ok line := by
  rw [consolidateLoop, h]

/-- Unfolding the loop when the oracle raises. -/
lemma consolidateLoop_raise (astParse : String → Except PyErr Unit)
    (L : List String) (orig idx : Int) (line : String) (e : PyErr)
    (h : parse_as_python astParse line = .error e) :
    consolidateLoop astParse L orig idx line = .error e := by
  rw [consolidateLoop, h]

/-- Unfolding the loop when the oracle rejects the buffer. -/
lemma consolidateLoop_step (astParse : String → Except PyErr Unit)
    (L : List String) (orig idx : Int) (line : String)
    (h : parse_as_python astParse line = .ok false) :
    consolidateLoop astParse L orig idx line =
      if (L.length : Int) ≤ idx + 1 then pyGet L orig
      else
        match pyGet L (idx + 1) with
        | .error e => .error e
        | .ok nxt =>
            consolidateLoop astParse L orig (idx + 1) (line ++ stripComment nxt) := by
  rw [consolidateLoop, h]
  rfl

/-- Indexing with a cast natural number is plain list lookup. -/
lemma pyGet_natCast (L : List String) (i : Nat) (l : String)
    (h : L.get? i = some l) : pyGet L (i : Int) = .ok l := by
  unfold pyGet
  rw [if_pos (by omega : (0 : Int) ≤ (i : Int))]
  have ht : ((i : Int)).toNat = i := by omega
  rw [ht, h]

/-- Growing the window one step further is growing from a longer start. -/
lemma grown_shift (line : String) (L : List String) (i : Nat) :
    ∀ k, grown line L i (k + 1) =
      grown (line ++ stripComment (L.getD (i + 1) "")) L (i + 1) k := by
  intro k
  induction k with
  | zero => rfl
  | succ k ih =>
    have harith : i + 1 + (k + 1) = (i + 1) + 1 + k := by omega
    calc grown line L i (k + 1 + 1)
        = grown line L i (k + 1) ++ stripComment (L.getD (i + 1 + (k + 1)) "") := rfl
      _ = grown (line ++ stripComment (L.getD (i + 1) "")) L (i + 1) k ++
            stripComment (L.getD ((i + 1) + 1 + k) "") := by rw [ih, harith]
      _ = grown (line ++ stripComment (L.getD (i + 1) "")) L (i + 1) (k + 1) := rfl

/-- Every grown window extends the starting buffer on the right. -/
lemma grown_append (line : String) (L : List String) (i : Nat) :
    ∀ k, ∃ s, grown line L i k = line ++ s := by
  intro k
  induction k with
  | zero => exact ⟨"", (String.append_empty line).symm⟩
  | succ k ih =>
    obtain ⟨s, hs⟩ := ih
    exact ⟨s ++ stripComment (L.getD (i + 1 + k) ""),
      by rw [grown, hs, String.append_assoc]⟩

/-- When no grown window from position `i` is ever accepted, the loop
scans to the end of the file and falls back to `lines[original_lineno]`. -/
lemma consolidateLoop_exhausts (astParse : String → Except PyErr Unit)
    (L : List String) (orig : Int) :
    ∀ (d i : Nat) (line : String), L.length - i = d → i < L.length →
      (∀ k, i + k < L.length →
        parse_as_python astParse (grown line L i k) = .ok false) →
      consolidateLoop astParse L orig (i : Int) line = pyGet L orig := by
  intro d
  induction d with
  | zero => intro i line hd hi hf; omega
  | succ d ih =>
    intro i line hd hi hf
    have h0 : parse_as_python astParse line = .ok false := by
      have := hf 0 (by omega)
      simpa [grown] using this
    rw [consolidateLoop_step astParse L orig (i : Int) line h0]
    by_cases hend : (L.length : Int) ≤ (i : Int) + 1
    · rw [if_pos hend]
    · rw [if_neg hend]
      have hi1 : i + 1 < L.length := by omega
      have hl1 : L.get? (i + 1) = some (L.get ⟨i + 1, hi1⟩) :=
        List.get?_eq_get hi1
      have hcast : (i : Int) + 1 = ((i + 1 : Nat) : Int) := by omega
      rw [hcast, pyGet_natCast L (i + 1) _ hl1]
      show consolidateLoop astParse L orig ((i + 1 : Nat) : Int)
        (line ++ stripComment (L.get ⟨i + 1, hi1⟩)) = pyGet L orig
      have hgd : L.getD (i + 1) "" = L.get ⟨i + 1, hi1⟩ := by
        rw [List.getD_eq_getD_get? L "" (i + 1), hl1]; rfl
      apply ih (i + 1) _ (by omega) hi1
      intro k hk
      have hstep := hf (k + 1) (by omega)
      rw [grown_shift line L i k, hgd] at hstep
      exact hstep

/-- Exhausted consolidation started from a cached file returns the
original queried line: the common core behind the fallback claims. -/
lemma consolidate_exhausts_core (astParse : String → Except PyErr Unit)
    (fsys : String → Except PyErr (List String)) (file : String)
    (st : CacheState) (L : List String) (lineno : Nat) (l : String)
    (hc : st.cache.lookup file = some L)
    (h1 : 1 ≤ lineno)
    (hl : L.get? (lineno - 1) = some l)
    (hfail : ∀ k, (lineno - 1) + k < L.length →
      parse_as_python astParse (grown l L (lineno - 1) k) = .ok false) :
    consolidate_multiline astParse fsys file (lineno : Int) st = (l, st) := by
  have hidx : (lineno : Int) - 1 = ((lineno - 1 : Nat) : Int) := by omega
  have hlt : lineno - 1 < L.length := (List.get?_eq_some.mp hl).1
  have hloop : consolidateLoop astParse L ((lineno - 1 : Nat) : Int)
      ((lineno - 1 : Nat) : Int) l = .ok l := by
    rw [consolidateLoop_exhausts astParse L _ (L.length - (lineno - 1))
      (lineno - 1) l (by omega) hlt hfail]
    exact pyGet_natCast L (lineno - 1) l hl
  unfold consolidate_multiline consolidateBody
  rw [read_file, hc]
  simp only [hidx, pyGet_natCast L (lineno - 1) l hl, hloop]

/-- Consolidation from an already-cached file whose starting index is
valid reduces to the loop outcome, with the cache state untouched. -/
lemma consolidate_multiline_cache_hit (astParse : String → Except PyErr Unit)
    (fsys : String → Except PyErr (List String)) (file : String)
    (lineno : Int) (st : CacheState) (L : List String) (l : String)
    (hc : st.cache.lookup file = some L)
    (hpg : pyGet L (lineno - 1) = .ok l) :
    consolidate_multiline astParse fsys file lineno st =
      (okValue (consolidateLoop astParse L (lineno - 1) (lineno - 1) l), st) := by
  simp only [consolidate_multiline, consolidateBody, read_file, hc, hpg]
  cases hr : consolidateLoop astParse L (lineno - 1) (lineno - 1) l with
  | ok r => rfl
  | error e => rfl

/-- A separator-free character list is returned whole by `pySplit`. -/
lemma pySplit_no_sep (c : Char) :
    ∀ xs : List Char, c ∉ xs → pySplit c xs = [xs] := by
  intro xs
  induction xs with
  | nil => intro _; rfl
  | cons x xs ih =>
    intro h
    have hx : ¬x = c := fun he => h (by simp [he])
    have hxs : c ∉ xs := fun hm => h (by simp [hm])
    simp [pySplit, hx, ih hxs]

/-- The part of a line before its first separator is what `split` keeps
in position 0. -/
lemma pySplit_head_before_sep (c : Char) :
    ∀ xs ys : List Char, c ∉ xs →
      (pySplit c (xs ++ c :: ys)).headD [] = xs := by
  intro xs
  induction xs with
  | nil =>
    intro ys _
    simp [pySplit]
  | cons x xs ih =>
    intro ys h
    have hx : ¬x = c := fun he => h (by simp [he])
    have hxs : c ∉ xs := fun hm => h (by simp [hm])
    have hrw : pySplit c ((x :: xs) ++ c :: ys) =
        (x :: (pySplit c (xs ++ c :: ys)).headD []) ::
          (pySplit c (xs ++ c :: ys)).tail := by
      simp [pySplit, hx]
    rw [hrw, List.headD_cons, ih ys hxs]

/-- Stripping a line with no comment marker is just trimming it. -/
lemma stripComment_no_hash (s : String) (h : '#' ∉ s.data) :
    stripComment s = pyStrip s := by
  unfold stripComment
  rw [pySplit_no_sep '#' s.data h]
  rfl

/-- Stripping a line made of code, a comment marker and comment text
keeps exactly the trimmed code part. -/
lemma stripComment_mk_comment (c2 cm : String) (h : '#' ∉ c2.data) :
    stripComment (String.mk (c2.data ++ '#' :: cm.data)) = pyStrip c2 := by
  unfold stripComment
  rw [show (String.mk (c2.data ++ '#' :: cm.data)).data =
    c2.data ++ '#' :: cm.data from rfl]
  rw [pySplit_head_before_sep '#' c2.data cm.data h]

/-- C3: for a cached file holding one statement split across exactly three
physical lines, with a trailing `#` comment on the second, consolidation
started at the first line returns the three trimmed lines joined with the
second line's comment text excluded, and the result satisfies the parse
oracle. -/
theorem consolidate_three_line_statement (astParse : String → Except PyErr Unit)
    (fsys : String → Except PyErr (List String)) (file : String)
    (l1 c2 cm l3 : String) (st : CacheState)
    (hc : st.cache.lookup file =
      some [l1, String.mk (c2.data ++ '#' :: cm.data), l3])
    (hc2 : '#' ∉ c2.data)
    (h3hash : '#' ∉ l3.data) (h3trim : pyStrip l3 = l3)
    (hp1 : parse_as_python astParse l1 = .ok false)
    (hp12 : parse_as_python astParse (l1 ++ pyStrip c2) = .ok false)
    (hp123 : parse_as_python astParse (l1 ++ pyStrip c2 ++ l3) = .ok true) :
    consolidate_multiline astParse fsys file 1 st =
      (l1 ++ pyStrip c2 ++ l3, st) ∧
    parse_as_python astParse (l1 ++ pyStrip c2 ++ l3) = .ok true := by
  refine ⟨?_, hp123⟩
  have hloop3 : consolidateLoop astParse
      [l1, String.mk (c2.data ++ '#' :: cm.data), l3] 0 2
      (l1 ++ pyStrip c2 ++ l3) = .ok (l1 ++ pyStrip c2 ++ l3) :=
    consolidateLoop_done _ _ _ _ _ hp123
  have hloop2 : consolidateLoop astParse
      [l1, String.mk (c2.data ++ '#' :: cm.data), l3] 0 1
      (l1 ++ pyStrip c2) = .ok (l1 ++ pyStrip c2 ++ l3) := by
    rw [consolidateLoop_step _ _ _ _ _ hp12]
    rw [if_neg (by simp :
      ¬ (([l1, String.mk (c2.data ++ '#' :: cm.data), l3].length : Int) ≤ 1 + 1))]
    rw [show ((1 : Int) + 1) = ((2 : Nat) : Int) by norm_num]
    rw [pyGet_natCast [l1, String.mk (c2.data ++ '#' :: cm.data), l3] 2 l3 rfl]
    show consolidateLoop astParse
      [l1, String.mk (c2.data ++ '#' :: cm.data), l3] 0 ((2 : Nat) : Int)
      ((l1 ++ pyStrip c2) ++ stripComment l3) = .ok (l1 ++ pyStrip c2 ++ l3)
    rw [stripComment_no_hash l3 h3hash, h3trim]
    exact hloop3
  have hloop1 : consolidateLoop astParse
      [l1, String.mk (c2.data ++ '#' :: cm.data), l3] 0 0 l1 =
      .ok (l1 ++ pyStrip c2 ++ l3) := by
    rw [consolidateLoop_step _ _ _ _ _ hp1]
    rw [if_neg (by simp :
      ¬ (([l1, String.mk (c2.data ++ '#' :: cm.data), l3].length : Int) ≤ 0 + 1))]
    rw [show ((0 : Int) + 1) = ((1 : Nat) : Int) by norm_num]
    rw [pyGet_natCast [l1, String.mk (c2.data ++ '#' :: cm.data), l3] 1
      (String.mk (c2.data ++ '#' :: cm.data)) rfl]
    show consolidateLoop astParse
      [l1, String.mk (c2.data ++ '#' :: cm.data), l3] 0 ((1 : Nat) : Int)
      (l1 ++ stripComment (String.mk (c2.data ++ '#' :: cm.data))) =
      .ok (l1 ++ pyStrip c2 ++ l3)
    rw [stripComment_mk_comment c2 cm hc2]
    exact hloop2
  rw [consolidate_multiline_cache_hit astParse fsys file 1 st
    [l1, String.mk (c2.data ++ '#' :: cm.data), l3] l1 hc
    (pyGet_natCast _ 0 l1 rfl)]
  have hfin : consolidateLoop astParse
      [l1, String.mk (c2.data ++ '#' :: cm.data), l3] ((1 : Int) - 1)
      ((1 : Int) - 1) l1 = .ok (l1 ++ pyStrip c2 ++ l3) := hloop1
  rw [hfin]
  rfl

theorem consolidate_three_line_statement_witness :
    consolidate_multiline c3Parse failFS "three.py" 1 c3State =
      ("foo(a," ++ pyStrip "b," ++ "c)", c3State) ∧
    parse_as_python c3Parse ("foo(a," ++ pyStrip "b," ++ "c)") = .ok true :=
  consolidate_three_line_statement c3Parse failFS "three.py"
    "foo(a," "b," " width" "c)" c3State rfl (by decide) (by decide) rfl
    rfl rfl rfl

/-- C4: when no accumulated window of lines from the queried position
onward ever satisfies the parse oracle before the file runs out, the
function returns the single original (trimmed) line at the queried
position unmodified — neither an exception nor the placeholder. -/
theorem consolidate_exhaustion_returns_original
    (astParse : String → Except PyErr Unit)
    (fsys : String → Except PyErr (List String)) (file : String)
    (st : CacheState) (L : List String) (lineno : Nat) (l : String)
    (hc : st.cache.lookup file = some L)
    (h1 : 1 ≤ lineno)
    (hl : L.get? (lineno - 1) = some l)
    (hfail : ∀ k, (lineno - 1) + k < L.length →
      parse_as_python astParse (grown l L (lineno - 1) k) = .ok false) :
    consolidate_multiline astParse fsys file (lineno : Int) st = (l, st) :=
  consolidate_exhausts_core astParse fsys file st L lineno l hc h1 hl hfail

theorem consolidate_exhaustion_returns_original_witness :
    consolidate_multiline rejectAll failFS "frag.py" ((2 : Nat) : Int)
      c4State = ("(", c4State) :=
  consolidate_exhaustion_returns_original rejectAll failFS "frag.py"
    c4State ["(", "("] 2 "(" rfl (by omega) rfl
    (fun k hk => by
      have hk0 : k = 0 := by simp at hk; omega
      subst hk0
      rfl)

/-- C9: comment stripping is applied only to appended lines, never to the
queried line itself.  When the queried line carries a trailing `#` comment
and fails the oracle, every accumulated buffer extends that line to the
right of its comment marker; with the oracle rejecting all such
extensions (as a real parser does, since the marker comments out the
rest of the joined text), the scan exhausts the file and the original
single line comes back instead of a consolidated statement. -/
theorem queried_line_comment_never_stripped
    (astParse : String → Except PyErr Unit)
    (fsys : String → Except PyErr (List String)) (file : String)
    (st : CacheState) (L : List String) (lineno : Nat) (c1 cm : String)
    (hc : st.cache.lookup file = some L)
    (h1 : 1 ≤ lineno)
    (hl : L.get? (lineno - 1) = some (String.mk (c1.data ++ '#' :: cm.data)))
    (hfail : ∀ s : String,
      parse_as_python astParse
        (String.mk (c1.data ++ '#' :: cm.data) ++ s) = .ok false) :
    consolidate_multiline astParse fsys file (lineno : Int) st =
      (String.mk (c1.data ++ '#' :: cm.data), st) := by
  apply consolidate_exhausts_core astParse fsys file st L lineno _ hc h1 hl
  intro k _
  obtain ⟨s, hs⟩ :=
    grown_append (String.mk (c1.data ++ '#' :: cm.data)) L (lineno - 1) k
  rw [hs]
  exact hfail s

theorem queried_line_comment_never_stripped_witness :
    consolidate_multiline c9Parse failFS "cmt.py" ((1 : Nat) : Int) c9State =
      (String.mk ("foo(a,".data ++ '#' :: " c".data), c9State) :=
  queried_line_comment_never_stripped c9Parse failFS "cmt.py" c9State
    [String.mk ("foo(a,".data ++ '#' :: " c".data), "b)"] 1 "foo(a," " c"
    rfl (by omega) rfl (fun s => rfl)

/-- Python index `-1` on a non-empty list selects the last element. -/
lemma pyGet_neg_one (L : List String) (hL : L ≠ []) :
    pyGet L (-1) = .ok (L.getLastD "") := by
  unfold pyGet
  rw [if_neg (by omega : ¬(0 : Int) ≤ -1)]
  have hlen : 1 ≤ L.length := List.length_pos.mpr hL
  have hcond : (-(-1 : Int)).toNat ≤ L.length := by
    simpa using hlen
  rw [if_pos hcond]
  have hlast : L.get? (L.length - (-(-1 : Int)).toNat) = some (L.getLastD "") := by
    show L.get? (L.length - 1) = some (L.getLastD "")
    rw [List.getLastD_eq_getLast?, List.getLast?_eq_getLast L hL]
    simp only [Option.getD_some]
    rw [List.getLast_eq_get]
    exact List.get?_eq_get _
  rw [hlast]

/-- With an oracle that only ever succeeds or raises `SyntaxError` (as
`ast.parse` does on this pipeline's inputs), the consolidation loop never
raises once its fallback index is valid. -/
lemma consolidateLoop_no_raise (astParse : String → Except PyErr Unit)
    (L : List String) (orig : Int)
    (hp : ∀ s, astParse s = .ok () ∨ astParse s = .error .syntaxError)
    (v : String) (horig : pyGet L orig = .ok v) :
    ∀ (d : Nat) (idx : Int) (line : String), (-1) ≤ idx →
      ((L.length : Int) - idx).toNat = d →
      ∃ r, consolidateLoop astParse L orig idx line = .ok r := by
  intro d
  induction d with
  | zero =>
    intro idx line hge hd
    rcases hp ("async def scope(): " ++ line) with hok | herr
    · exact ⟨line, consolidateLoop_done _ _ _ _ _
        (by unfold parse_as_python; rw [hok])⟩
    · have hfalse : parse_as_python astParse line = .ok false := by
        unfold parse_as_python; rw [herr]
      rw [consolidateLoop_step _ _ _ _ _ hfalse]
      rw [if_pos (by omega : (L.length : Int) ≤ idx + 1)]
      exact ⟨v, horig⟩
  | succ d ih =>
    intro idx line hge hd
    rcases hp ("async def scope(): " ++ line) with hok | herr
    · exact ⟨line, consolidateLoop_done _ _ _ _ _
        (by unfold parse_as_python; rw [hok])⟩
    · have hfalse : parse_as_python astParse line = .ok false := by
        unfold parse_as_python; rw [herr]
      rw [consolidateLoop_step _ _ _ _ _ hfalse]
      by_cases hend : (L.length : Int) ≤ idx + 1
      · rw [if_pos hend]
        exact ⟨v, horig⟩
      · rw [if_neg hend]
        have hn : (idx + 1).toNat < L.length := by omega
        have hget : L.get? (idx + 1).toNat =
            some (L.get ⟨(idx + 1).toNat, hn⟩) := List.get?_eq_get hn
        have hcast : idx + 1 = (((idx + 1).toNat : Nat) : Int) := by omega
        rw [hcast, pyGet_natCast L _ _ hget]
        exact ih (((idx + 1).toNat : Nat) : Int)
          (line ++ stripComment (L.get ⟨(idx + 1).toNat, hn⟩))
          (by omega) (by omega)

/-- C10: `dump_stacktrace` passes `f.lineno or 0` to the consolidator, so
a frame without a line number queries line 0; the decrement makes the
starting index `-1`, which Python's negative indexing resolves to the
file's last physical line.  For every non-empty cached file (and an
oracle that, like `ast.parse`, raises only `SyntaxError`), consolidation
therefore begins from the last line and completes normally rather than
raising or falling back to the `"<unknown>"` placeholder. -/
theorem lineno_zero_starts_at_last_line (astParse : String → Except PyErr Unit)
    (fsys : String → Except PyErr (List String)) (file : String)
    (st : CacheState) (L : List String)
    (hL : L ≠ [])
    (hc : st.cache.lookup file = some L)
    (hp : ∀ s, astParse s = .ok () ∨ astParse s = .error .syntaxError) :
    (consolidateLoop astParse L (-1) (-1) (L.getLastD "")).isOk = true ∧
    consolidate_multiline astParse fsys file 0 st =
      (okValue (consolidateLoop astParse L (-1) (-1) (L.getLastD "")), st) := by
  have hpg : pyGet L ((0 : Int) - 1) = .ok (L.getLastD "") := pyGet_neg_one L hL
  obtain ⟨r, hr⟩ := consolidateLoop_no_raise astParse L (-1) hp (L.getLastD "")
    (pyGet_neg_one L hL) (((L.length : Int) - (-1)).toNat) (-1) (L.getLastD "")
    (by omega) rfl
  constructor
  · rw [hr]; rfl
  · rw [consolidate_multiline_cache_hit astParse fsys file 0 st L
      (L.getLastD "") hc hpg]
    norm_num

theorem lineno_zero_starts_at_last_line_witness :
    (consolidateLoop c10Parse ["x = 1"] (-1) (-1)
      (["x = 1"].getLastD "")).isOk = true ∧
    consolidate_multiline c10Parse failFS "last.py" 0 c10State =
      (okValue (consolidateLoop c10Parse ["x = 1"] (-1) (-1)
        (["x = 1"].getLastD "")), c10State) :=
  lineno_zero_starts_at_last_line c10Parse failFS "last.py" c10State
    ["x = 1"] (by simp) rfl
    (fun s => by
      simp only [c10Parse]
      split
      · exact Or.inl rfl
      · exact Or.inr rfl)

end Proflog
